import Mathlib

/-!
Shallow embedding of `src/TorzelaUtils.py` (Python 3), the cryptographic
onion-layer module of the Torzela project.

Conventions of the embedding:
* a Python `bytes` value is a `List Nat` whose elements are meant to lie
  below 256;
* a Python `str` value is a `List Nat` of Unicode code points;
* calls into the external `cryptography.hazmat` library (the AES block
  cipher, HKDF-SHA256, and PEM key serialization) go through an explicit
  `CryptoBackend` parameter, so every repository function is a computable
  Lean function of its arguments and of that backend; concrete backends
  (including a bit-faithful AES-256 / HKDF-SHA256 one) are provided below;
* Python exceptions are modelled with `Except PyError`.
-/

/-- Exception classes observable from the module.  `paddingError` is the
padding failure raised by the PKCS7 unpadder (a `ValueError` subclass in
CPython, kept separate here because the spec names it as its own error
kind), and `invalidRole` is the spec's `InvalidRole` error kind, which the
code itself never raises. -/
inductive PyError where
  | attributeError
  | valueError
  | unicodeDecodeError
  | paddingError
  | invalidRole
  deriving DecidableEq, Repr

/-- Dynamically typed Python value, as far as the module needs: a `str`
(list of code points) or a `bytes` (list of bytes). -/
inductive PyVal where
  | pyStr (s : List Nat)
  | pyBytes (b : List Nat)
  deriving DecidableEq, Repr

/-- UTF-8 encoding of one code point (Python `str.encode()`), total on
scalar values; the module only ever encodes ASCII text. -/
def utf8EncodeChar (c : Nat) : List Nat :=
  if c < 128 then [c]
  else if c < 2048 then [192 + c / 64, 128 + c % 64]
  else if c < 65536 then [224 + c / 4096, 128 + c / 64 % 64, 128 + c % 64]
  else [240 + c / 262144, 128 + c / 4096 % 64, 128 + c / 64 % 64, 128 + c % 64]

/-- UTF-8 encoding of a string (Python `str.encode()`). -/
def utf8Encode (s : List Nat) : List Nat :=
  s.flatMap utf8EncodeChar

/-- Decode one UTF-8 scalar value from lead byte `b` followed by `bs`:
returns the code point and how many continuation bytes were consumed, or
`none` on invalid input.  Rejects stray continuation bytes, overlong
forms, surrogates and out-of-range lead bytes, exactly as CPython's
strict codec does. -/
def utf8DecodeOne (b : Nat) (bs : List Nat) : Option (Nat × Nat) :=
  if b < 128 then some (b, 0)
  else if b < 194 then none
  else if b < 224 then
    match bs with
    | b1 :: _ =>
      if 128 ≤ b1 ∧ b1 < 192 then some ((b - 192) * 64 + (b1 - 128), 1) else none
    | _ => none
  else if b < 240 then
    match bs with
    | b1 :: b2 :: _ =>
      if (128 ≤ b1 ∧ b1 < 192) ∧ (128 ≤ b2 ∧ b2 < 192) then
        let c := (b - 224) * 4096 + (b1 - 128) * 64 + (b2 - 128)
        if c < 2048 ∨ (55296 ≤ c ∧ c < 57344) then none else some (c, 2)
      else none
    | _ => none
  else if b < 245 then
    match bs with
    | b1 :: b2 :: b3 :: _ =>
      if (128 ≤ b1 ∧ b1 < 192) ∧ (128 ≤ b2 ∧ b2 < 192) ∧ (128 ≤ b3 ∧ b3 < 192) then
        let c := (b - 240) * 262144 + (b1 - 128) * 4096 + (b2 - 128) * 64 + (b3 - 128)
        if c < 65536 ∨ 1114112 ≤ c then none else some (c, 3)
      else none
    | _ => none
  else none

/-- Fuelled worker for `utf8Decode`; one unit of fuel is spent per
decoded character, so any fuel at least the byte length suffices. -/
def utf8DecodeGo : Nat → List Nat → Option (List Nat)
  | _, [] => some []
  | 0, _ :: _ => none
  | fuel + 1, b :: bs =>
    match utf8DecodeOne b bs with
    | none => none
    | some pr => (utf8DecodeGo fuel (bs.drop pr.2)).map (fun t => pr.1 :: t)

/-- Strict UTF-8 decoding of a whole byte string
(Python `bytes.decode()`). -/
def utf8Decode (l : List Nat) : Option (List Nat) :=
  utf8DecodeGo l.length l

/-- Python's `.decode()` attribute call: defined on `bytes` (strict UTF-8
decode, raising `UnicodeDecodeError` on invalid data); on a `str` it
raises `AttributeError`, since Python 3 removed `str.decode`. -/
def pyDecode : PyVal → Except PyError (List Nat)
  | .pyBytes b =>
    match utf8Decode b with
    | some t => .ok t
    | none => .error .unicodeDecodeError
  | .pyStr _ => .error .attributeError

/-- Split off everything before the first occurrence of byte `sep`. -/
def breakAtByte (sep : Nat) : List Nat → Option (List Nat × List Nat)
  | [] => none
  | c :: cs =>
    if c = sep then some ([], cs)
    else (breakAtByte sep cs).map (fun pr => (c :: pr.1, pr.2))

/-- Python `s.split(sep, maxsplit)` for a one-character separator. -/
def pySplit (sep : Nat) : Nat → List Nat → List (List Nat)
  | 0, s => [s]
  | m + 1, s =>
    match breakAtByte sep s with
    | none => [s]
    | some pr => pr.1 :: pySplit sep m pr.2

/-- Python tuple unpacking `a, b = xs`: `ValueError` unless `xs` has
exactly two elements. -/
def unpack2 {α : Type} : List α → Except PyError (α × α)
  | [a, b] => .ok (a, b)
  | _ => .error .valueError

/-- Python tuple unpacking `a, b, c = xs`: `ValueError` unless `xs` has
exactly three elements. -/
def unpack3 {α : Type} : List α → Except PyError (α × α × α)
  | [a, b, c] => .ok (a, b, c)
  | _ => .error .valueError

/-- Decimal digit test (codes 48-57). -/
def isDigitCode (c : Nat) : Bool :=
  48 ≤ c && c ≤ 57

/-- Value of a list of decimal digit codes. -/
def digitsVal (ds : List Nat) : Nat :=
  ds.foldl (fun acc d => acc * 10 + (d - 48)) 0

/-- Python `int(s)` on a string: optional sign followed by a nonempty
run of decimal digits, `ValueError` otherwise. -/
def pyInt (s : List Nat) : Except PyError Int :=
  match s with
  | 43 :: rest =>
    if rest ≠ [] ∧ rest.all isDigitCode then .ok (Int.ofNat (digitsVal rest))
    else .error .valueError
  | 45 :: rest =>
    if rest ≠ [] ∧ rest.all isDigitCode then .ok (-(Int.ofNat (digitsVal rest)))
    else .error .valueError
  | _ =>
    if s ≠ [] ∧ s.all isDigitCode then .ok (Int.ofNat (digitsVal s))
    else .error .valueError

/-- Bytewise xor of two byte strings. -/
def zipXor (a b : List Nat) : List Nat :=
  List.zipWith Nat.xor a b

/-- PKCS#7 padding to 128-bit (16-byte) blocks:
`padder.update(data) + padder.finalize()`. -/
def pkcs7Pad (data : List Nat) : List Nat :=
  let n := 16 - data.length % 16
  data ++ List.replicate n n

/-- PKCS#7 unpadding for 16-byte blocks:
`unpadder.update(data) + unpadder.finalize()`; raises on any malformed
padding, which is the scheme's only integrity check. -/
def pkcs7Unpad (data : List Nat) : Except PyError (List Nat) :=
  if data.length % 16 = 0 ∧ data.length ≠ 0 then
    let n := data.getLastD 0
    if 1 ≤ n ∧ n ≤ 16 ∧ n ≤ data.length ∧ data.drop (data.length - n) = List.replicate n n
    then .ok (data.take (data.length - n))
    else .error .paddingError
  else .error .paddingError

/-- Fuelled worker for `toBlocks`; one unit of fuel is spent per block,
so any fuel at least the byte length suffices. -/
def toBlocksGo : Nat → List Nat → List (List Nat)
  | _, [] => []
  | 0, _ :: _ => []
  | fuel + 1, b :: bs => (b :: bs).take 16 :: toBlocksGo fuel ((b :: bs).drop 16)

/-- Cut a byte string into 16-byte blocks (the final block keeps whatever
is left when the length is not a multiple of 16). -/
def toBlocks (l : List Nat) : List (List Nat) :=
  toBlocksGo l.length l

/-- CBC-mode encryption of a list of 16-byte blocks with block cipher `E`:
each block is xored with the previous ciphertext block (initially the IV)
before being enciphered. -/
def cbcEncryptBlocks (E : List Nat → List Nat → List Nat) (key : List Nat) :
    List Nat → List (List Nat) → List (List Nat)
  | _, [] => []
  | prev, b :: bs =>
    let c := E key (zipXor prev b)
    c :: cbcEncryptBlocks E key c bs

/-- CBC-mode decryption of a list of 16-byte blocks with block cipher
inverse `D`. -/
def cbcDecryptBlocks (D : List Nat → List Nat → List Nat) (key : List Nat) :
    List Nat → List (List Nat) → List (List Nat)
  | _, [] => []
  | prev, c :: cs =>
    zipXor prev (D key c) :: cbcDecryptBlocks D key c cs

/-- Diffie-Hellman domain parameters (generator and prime modulus),
shared by all participants. -/
structure DHParams where
  p : Nat
  g : Nat
  deriving DecidableEq, Repr

/-- A DH private key: the secret exponent together with the domain
parameters it was generated under. -/
structure DHPrivateKey where
  p : Nat
  g : Nat
  x : Nat
  deriving DecidableEq, Repr

/-- A DH public key: the group element together with its domain
parameters. -/
structure DHPublicKey where
  p : Nat
  g : Nat
  y : Nat
  deriving DecidableEq, Repr

/-- Explicit parameter standing for the external `cryptography.hazmat`
library: the AES block cipher in both directions, HKDF-SHA256 with the
module's fixed settings, and PEM serialization of public keys.
Repository functions take a backend as their first argument; concrete
backends are defined below. -/
structure CryptoBackend where
  blockEnc : List Nat → List Nat → List Nat
  blockDec : List Nat → List Nat → List Nat
  hkdfSha256 : List Nat → List Nat
  pemEncodePub : DHPublicKey → List Nat
  pemDecodePub : List Nat → Option DHPublicKey

/-- Source `createKeyGenerator` (lines 20-22): asks the library for DH
parameters with generator 2; the 512-bit prime the library draws is the
explicit argument here. -/
def createKeyGenerator (p : Nat) : DHParams :=
  { p := p, g := 2 }

/-- Source `generateKeys` (lines 31-35): samples a private exponent (the
explicit argument `x` stands for the library's randomness) and computes
the matching public element. -/
def generateKeys (keyGenerator : DHParams) (x : Nat) : DHPrivateKey × DHPublicKey :=
  ({ p := keyGenerator.p, g := keyGenerator.g, x := x },
   { p := keyGenerator.p, g := keyGenerator.g, y := keyGenerator.g ^ x % keyGenerator.p })

/-- Big-endian fixed-width byte serialization of a natural number, as the
library uses for the raw DH shared value. -/
def intToBytesBE : Nat → Nat → List Nat
  | 0, _ => []
  | len + 1, n => intToBytesBE len (n / 256) ++ [n % 256]

/-- Fuelled worker for `bitLen`; fuel `n` is enough for input `n`. -/
def bitLenGo : Nat → Nat → Nat
  | 0, _ => 0
  | fuel + 1, n => if n = 0 then 0 else bitLenGo fuel (n / 2) + 1

/-- Python `int.bit_length()`. -/
def bitLen (n : Nat) : Nat :=
  bitLenGo n n

/-- Library `private_key.exchange(peer_public_key)`: checks that both
keys share domain parameters (`ValueError` otherwise), then returns the
shared group element serialized big-endian to the modulus byte length. -/
def dhExchange (priv : DHPrivateKey) (pub : DHPublicKey) : Except PyError (List Nat) :=
  if priv.p = pub.p ∧ priv.g = pub.g then
    .ok (intToBytesBE ((bitLen priv.p + 7) / 8) (pub.y ^ priv.x % priv.p))
  else .error .valueError

/-- Source `computeSharedSecret` (lines 37-48): DH exchange followed by
HKDF-SHA256 (length 32, no salt, info `handshake data`), which the
backend provides. -/
def computeSharedSecret (lib : CryptoBackend) (myPrivateKey : DHPrivateKey)
    (otherPublicKey : DHPublicKey) : Except PyError (List Nat) :=
  match dhExchange myPrivateKey otherPublicKey with
  | .error e => .error e
  | .ok shared_key => .ok (lib.hkdfSha256 shared_key)

/-- The hard-coded CBC initialization vector of `createCipher`
(line 27). -/
def torzelaIV : List Nat :=
  [43, 237, 54, 221, 240, 177, 23, 162, 167, 18, 19, 211, 208, 249, 20, 172]

/-- Cipher object produced by `createCipher`: AES key plus CBC IV. -/
structure CipherObj where
  key : List Nat
  iv : List Nat
  deriving DecidableEq, Repr

/-- Source `createCipher` (lines 24-29): AES in CBC mode with the
hard-coded 16-byte IV from line 27; the library rejects AES keys whose
length is not 16, 24 or 32 bytes. -/
def createCipher (sharedSecret : List Nat) : Except PyError CipherObj :=
  if sharedSecret.length = 16 ∨ sharedSecret.length = 24 ∨ sharedSecret.length = 32 then
    .ok { key := sharedSecret, iv := torzelaIV }
  else .error .valueError

/-- Source `encryptMessage` (lines 53-60): PKCS7-pad the UTF-8 encoding
of `msg`, then AES-CBC encrypt it with the cipher from `createCipher`.
Returns the ciphertext bytes. -/
def encryptMessage (lib : CryptoBackend) (shared_secret : List Nat) (msg : List Nat) :
    Except PyError (List Nat) :=
  let padded_data := pkcs7Pad (utf8Encode msg)
  match createCipher shared_secret with
  | .error e => .error e
  | .ok cipher =>
    .ok (List.flatten (cbcEncryptBlocks lib.blockEnc cipher.key cipher.iv (toBlocks padded_data)))

/-- Source `decryptMessage` (lines 65-73): AES-CBC decrypt (the library's
decryptor requires whole 16-byte blocks), strip PKCS7 padding, and decode
the result as UTF-8 text.  Returns a `str`. -/
def decryptMessage (lib : CryptoBackend) (shared_secret : List Nat) (msg : List Nat) :
    Except PyError (List Nat) :=
  match createCipher shared_secret with
  | .error e => .error e
  | .ok cipher =>
    if msg.length % 16 = 0 then
      let dt := List.flatten (cbcDecryptBlocks lib.blockDec cipher.key cipher.iv (toBlocks msg))
      match pkcs7Unpad dt with
      | .error e => .error e
      | .ok unpadded_data => pyDecode (.pyBytes unpadded_data)
    else .error .valueError

/-- Source `serializePublicKey` (lines 76-80): PEM-encode the public key
(library call) and decode the resulting bytes to a `str`. -/
def serializePublicKey (lib : CryptoBackend) (public_key : DHPublicKey) :
    Except PyError (List Nat) :=
  pyDecode (.pyBytes (lib.pemEncodePub public_key))

/-- Source `deserializePublicKey` (lines 84-86): UTF-8 encode the text
and parse it as a PEM public key (library call, `ValueError` on
malformed input). -/
def deserializePublicKey (lib : CryptoBackend) (public_key : List Nat) :
    Except PyError DHPublicKey :=
  match lib.pemDecodePub (utf8Encode public_key) with
  | some k => .ok k
  | none => .error .valueError

/-- Decoded result of one onion layer, by server role. -/
inductive OnionDecResult where
  | front (ppk : DHPublicKey) (payload : List Nat)
  | spreading (ppk : DHPublicKey) (dds : Int) (payload : List Nat)
  | deadDrop (ppk : DHPublicKey) (clientChain : Int) (dd : Int) (payload : List Nat)
  deriving DecidableEq, Repr

/-- Source `decryptOnionLayer` (lines 102-119): split the wire payload at
the first `#`, deserialize the embedded peer key, recompute the shared
secret, decrypt, and parse by role.  Line 107 calls `.decode()` on the
`str` already returned by `decryptMessage`, which in Python 3 is an
`AttributeError`.  The `serverType` fallthrough (lines 118-119) prints an
error and returns `None`, modelled as `.ok none`. -/
def decryptOnionLayer (lib : CryptoBackend) (serverPrivateKey : DHPrivateKey)
    (msgPayload : List Nat) (serverType : Int) : Except PyError (Option OnionDecResult) :=
  match unpack2 (pySplit 35 1 msgPayload) with
  | .error e => .error e
  | .ok (ppkText, payloadText) =>
    match deserializePublicKey lib ppkText with
    | .error e => .error e
    | .ok ppk =>
      let payload := utf8Encode payloadText
      match computeSharedSecret lib serverPrivateKey ppk with
      | .error e => .error e
      | .ok sharedSecret =>
        match decryptMessage lib sharedSecret payload with
        | .error e => .error e
        | .ok decrypted =>
          match pyDecode (.pyStr decrypted) with
          | .error e => .error e
          | .ok decryptedPayload =>
            if serverType = 0 then
              .ok (some (.front ppk decryptedPayload))
            else if serverType = 1 then
              match unpack3 (pySplit 35 2 decryptedPayload) with
              | .error e => .error e
              | .ok (dds, payload1, payload2) =>
                match pyInt dds with
                | .error e => .error e
                | .ok ddsVal => .ok (some (.spreading ppk ddsVal (payload1 ++ 35 :: payload2)))
            else if serverType = 2 then
              match unpack3 (pySplit 35 2 decryptedPayload) with
              | .error e => .error e
              | .ok (clientChain, dd, payloadRest) =>
                match pyInt clientChain with
                | .error e => .error e
                | .ok ccVal =>
                  match pyInt dd with
                  | .error e => .error e
                  | .ok ddVal => .ok (some (.deadDrop ppk ccVal ddVal payloadRest))
            else
              .ok none

/-- Source `encryptOnionLayer` (lines 122-125): derive the shared secret,
encrypt the payload, and decode the raw ciphertext bytes as UTF-8 text
(which fails whenever those bytes are not valid UTF-8). -/
def encryptOnionLayer (lib : CryptoBackend) (serverPrivateKey : DHPrivateKey)
    (clientPublicKey : DHPublicKey) (msgPayload : List Nat) : Except PyError (List Nat) :=
  match computeSharedSecret lib serverPrivateKey clientPublicKey with
  | .error e => .error e
  | .ok sharedSecret =>
    match encryptMessage lib sharedSecret msgPayload with
    | .error e => .error e
    | .ok encryptedPayload => pyDecode (.pyBytes encryptedPayload)

/-- Modelled from the spec: the caller-side composition of a full wire
onion layer (spec section 4.4, `encryptLayer` step 3, and section 6) —
the sender's serialized public key, the `#` delimiter, then the encrypted
layer.  The repository performs this composition in its server and client
code, which lies outside this module. -/
def buildLayer (lib : CryptoBackend) (senderPriv : DHPrivateKey) (senderPub : DHPublicKey)
    (receiverPub : DHPublicKey) (payload : List Nat) : Except PyError (List Nat) :=
  match serializePublicKey lib senderPub with
  | .error e => .error e
  | .ok ser =>
    match encryptOnionLayer lib senderPriv receiverPub payload with
    | .error e => .error e
    | .ok ct => .ok (ser ++ 35 :: ct)

/-- Character set of `createRandomMessage` (line 17): ASCII letters plus
the sixteen punctuation characters of the source string. -/
def messageChars : List Nat :=
  (List.range 26).map (fun i => 97 + i) ++ (List.range 26).map (fun i => 65 + i) ++
    [46, 44, 58, 59, 45, 43, 42, 47, 63, 33, 40, 41, 91, 93, 123, 125]

/-- Decimal digit codes of a natural number. -/
def natToDigits (n : Nat) : List Nat :=
  (Nat.toDigits 10 n).map Char.toNat

/-- Parse a nonempty all-digit byte string. -/
def parseNatDigits (s : List Nat) : Option Nat :=
  if s ≠ [] ∧ s.all isDigitCode then some (digitsVal s) else none

/-- Toy PEM encoding used by the test backends: the three components of
the key in decimal, separated by commas.  Like real PEM output it is
pure ASCII and contains no `#`. -/
def decimalPemEncode (k : DHPublicKey) : List Nat :=
  natToDigits k.p ++ 44 :: natToDigits k.g ++ 44 :: natToDigits k.y

/-- Inverse of `decimalPemEncode`. -/
def decimalPemDecode (b : List Nat) : Option DHPublicKey :=
  match pySplit 44 2 b with
  | [ps, gs, ys] =>
    match parseNatDigits ps, parseNatDigits gs, parseNatDigits ys with
    | some p, some g, some y => some { p := p, g := g, y := y }
    | _, _, _ => none
  | _ => none

/-- Truncate or zero-pad a byte string to 32 bytes (toy key derivation
for the test backends; it keeps the 32-byte output length of HKDF). -/
def padTo32 (b : List Nat) : List Nat :=
  (b ++ List.replicate 32 0).take 32

/-- Test backend with the identity block cipher. -/
def idBackend : CryptoBackend where
  blockEnc := fun _ b => b
  blockDec := fun _ b => b
  hkdfSha256 := padTo32
  pemEncodePub := decimalPemEncode
  pemDecodePub := decimalPemDecode

/-- Test backend whose block cipher xors with the fixed IV; it is its own
inverse, and under CBC the first ciphertext block then equals the first
padded plaintext block, keeping single-block ciphertexts ASCII. -/
def xorBackend : CryptoBackend where
  blockEnc := fun _ b => zipXor torzelaIV b
  blockDec := fun _ b => zipXor torzelaIV b
  hkdfSha256 := padTo32
  pemEncodePub := decimalPemEncode
  pemDecodePub := decimalPemDecode

/-- Concrete DH group for the closed evaluations: generator 2, modulus
1019 (the code's own group only differs in the size of the prime). -/
def demoParams : DHParams := createKeyGenerator 1019

/-- Concrete key pair A (private exponent 5). -/
def aliceKeys : DHPrivateKey × DHPublicKey := generateKeys demoParams 5

/-- Concrete key pair B (private exponent 7). -/
def bobKeys : DHPrivateKey × DHPublicKey := generateKeys demoParams 7

/-- Code points of the payload string `hello`. -/
def helloMsg : List Nat := [104, 101, 108, 108, 111]

/-- Code points of the SPREADING-shaped payload string `3#a#b#c`. -/
def spreadMsg : List Nat := [51, 35, 97, 35, 98, 35, 99]

/-- Code points of the payload string `abc` (no `#`-delimited fields). -/
def abcMsg : List Nat := [97, 98, 99]

/-- The AES S-box (FIPS 197). -/
def aesSbox : List Nat :=
  [99, 124, 119, 123, 242, 107, 111, 197, 48, 1, 103, 43,
   254, 215, 171, 118, 202, 130, 201, 125, 250, 89, 71, 240,
   173, 212, 162, 175, 156, 164, 114, 192, 183, 253, 147, 38,
   54, 63, 247, 204, 52, 165, 229, 241, 113, 216, 49, 21,
   4, 199, 35, 195, 24, 150, 5, 154, 7, 18, 128, 226,
   235, 39, 178, 117, 9, 131, 44, 26, 27, 110, 90, 160,
   82, 59, 214, 179, 41, 227, 47, 132, 83, 209, 0, 237,
   32, 252, 177, 91, 106, 203, 190, 57, 74, 76, 88, 207,
   208, 239, 170, 251, 67, 77, 51, 133, 69, 249, 2, 127,
   80, 60, 159, 168, 81, 163, 64, 143, 146, 157, 56, 245,
   188, 182, 218, 33, 16, 255, 243, 210, 205, 12, 19, 236,
   95, 151, 68, 23, 196, 167, 126, 61, 100, 93, 25, 115,
   96, 129, 79, 220, 34, 42, 144, 136, 70, 238, 184, 20,
   222, 94, 11, 219, 224, 50, 58, 10, 73, 6, 36, 92,
   194, 211, 172, 98, 145, 149, 228, 121, 231, 200, 55, 109,
   141, 213, 78, 169, 108, 86, 244, 234, 101, 122, 174, 8,
   186, 120, 37, 46, 28, 166, 180, 198, 232, 221, 116, 31,
   75, 189, 139, 138, 112, 62, 181, 102, 72, 3, 246, 14,
   97, 53, 87, 185, 134, 193, 29, 158, 225, 248, 152, 17,
   105, 217, 142, 148, 155, 30, 135, 233, 206, 85, 40, 223,
   140, 161, 137, 13, 191, 230, 66, 104, 65, 153, 45, 15,
   176, 84, 187, 22]

/-- The inverse AES S-box (FIPS 197). -/
def aesInvSbox : List Nat :=
  [82, 9, 106, 213, 48, 54, 165, 56, 191, 64, 163, 158,
   129, 243, 215, 251, 124, 227, 57, 130, 155, 47, 255, 135,
   52, 142, 67, 68, 196, 222, 233, 203, 84, 123, 148, 50,
   166, 194, 35, 61, 238, 76, 149, 11, 66, 250, 195, 78,
   8, 46, 161, 102, 40, 217, 36, 178, 118, 91, 162, 73,
   109, 139, 209, 37, 114, 248, 246, 100, 134, 104, 152, 22,
   212, 164, 92, 204, 93, 101, 182, 146, 108, 112, 72, 80,
   253, 237, 185, 218, 94, 21, 70, 87, 167, 141, 157, 132,
   144, 216, 171, 0, 140, 188, 211, 10, 247, 228, 88, 5,
   184, 179, 69, 6, 208, 44, 30, 143, 202, 63, 15, 2,
   193, 175, 189, 3, 1, 19, 138, 107, 58, 145, 17, 65,
   79, 103, 220, 234, 151, 242, 207, 206, 240, 180, 230, 115,
   150, 172, 116, 34, 231, 173, 53, 133, 226, 249, 55, 232,
   28, 117, 223, 110, 71, 241, 26, 113, 29, 41, 197, 137,
   111, 183, 98, 14, 170, 24, 190, 27, 252, 86, 62, 75,
   198, 210, 121, 32, 154, 219, 192, 254, 120, 205, 90, 244,
   31, 221, 168, 51, 136, 7, 199, 49, 177, 18, 16, 89,
   39, 128, 236, 95, 96, 81, 127, 169, 25, 181, 74, 13,
   45, 229, 122, 159, 147, 201, 156, 239, 160, 224, 59, 77,
   174, 42, 245, 176, 200, 235, 187, 60, 131, 83, 153, 97,
   23, 43, 4, 126, 186, 119, 214, 38, 225, 105, 20, 99,
   85, 33, 12, 125]

/-- SHA-256 round constants (FIPS 180-4). -/
def sha256K : List Nat :=
  [1116352408, 1899447441, 3049323471, 3921009573, 961987163, 1508970993,
   2453635748, 2870763221, 3624381080, 310598401, 607225278, 1426881987,
   1925078388, 2162078206, 2614888103, 3248222580, 3835390401, 4022224774,
   264347078, 604807628, 770255983, 1249150122, 1555081692, 1996064986,
   2554220882, 2821834349, 2952996808, 3210313671, 3336571891, 3584528711,
   113926993, 338241895, 666307205, 773529912, 1294757372, 1396182291,
   1695183700, 1986661051, 2177026350, 2456956037, 2730485921, 2820302411,
   3259730800, 3345764771, 3516065817, 3600352804, 4094571909, 275423344,
   430227734, 506948616, 659060556, 883997877, 958139571, 1322822218,
   1537002063, 1747873779, 1955562222, 2024104815, 2227730452, 2361852424,
   2428436474, 2756734187, 3204031479, 3329325298]

/-- SHA-256 initial hash value (FIPS 180-4). -/
def sha256H0 : List Nat :=
  [1779033703, 3144134277, 1013904242, 2773480762, 1359893119, 2600822924, 528734635, 1541459225]

/-- S-box lookup. -/
def sboxAt (b : Nat) : Nat := aesSbox.getD b 0

/-- Inverse S-box lookup. -/
def invSboxAt (b : Nat) : Nat := aesInvSbox.getD b 0

/-- Multiplication by x in GF(2^8) with the AES reduction polynomial. -/
def aesXtime (b : Nat) : Nat :=
  (b * 2 ^^^ (if 128 ≤ b then 27 else 0)) % 256

/-- Worker for GF(2^8) multiplication (Russian-peasant loop, 8 rounds). -/
def aesGmulGo : Nat → Nat → Nat → Nat → Nat
  | 0, _, _, acc => acc
  | n + 1, a, b, acc =>
    aesGmulGo n (aesXtime a) (b / 2) (if b % 2 = 1 then acc ^^^ a else acc)

/-- GF(2^8) multiplication with the AES reduction polynomial. -/
def aesGmul (a b : Nat) : Nat := aesGmulGo 8 a b 0

/-- AES ShiftRows on the flat 16-byte state (byte `i` sits at row `i % 4`,
column `i / 4`). -/
def shiftRows (st : List Nat) : List Nat :=
  (List.range 16).map (fun i => st.getD (i % 4 + 4 * ((i / 4 + i % 4) % 4)) 0)

/-- AES InvShiftRows on the flat 16-byte state. -/
def invShiftRows (st : List Nat) : List Nat :=
  (List.range 16).map (fun i => st.getD (i % 4 + 4 * ((i / 4 + 4 - i % 4) % 4)) 0)

/-- AES MixColumns applied to one column. -/
def mixColumn (s0 s1 s2 s3 : Nat) : List Nat :=
  [aesGmul 2 s0 ^^^ aesGmul 3 s1 ^^^ s2 ^^^ s3,
   s0 ^^^ aesGmul 2 s1 ^^^ aesGmul 3 s2 ^^^ s3,
   s0 ^^^ s1 ^^^ aesGmul 2 s2 ^^^ aesGmul 3 s3,
   aesGmul 3 s0 ^^^ s1 ^^^ s2 ^^^ aesGmul 2 s3]

/-- AES MixColumns on the flat 16-byte state. -/
def mixColumns (st : List Nat) : List Nat :=
  (List.range 4).flatMap (fun c =>
    mixColumn (st.getD (4 * c) 0) (st.getD (4 * c + 1) 0)
      (st.getD (4 * c + 2) 0) (st.getD (4 * c + 3) 0))

/-- AES InvMixColumns applied to one column. -/
def invMixColumn (s0 s1 s2 s3 : Nat) : List Nat :=
  [aesGmul 14 s0 ^^^ aesGmul 11 s1 ^^^ aesGmul 13 s2 ^^^ aesGmul 9 s3,
   aesGmul 9 s0 ^^^ aesGmul 14 s1 ^^^ aesGmul 11 s2 ^^^ aesGmul 13 s3,
   aesGmul 13 s0 ^^^ aesGmul 9 s1 ^^^ aesGmul 14 s2 ^^^ aesGmul 11 s3,
   aesGmul 11 s0 ^^^ aesGmul 13 s1 ^^^ aesGmul 9 s2 ^^^ aesGmul 14 s3]

/-- AES InvMixColumns on the flat 16-byte state. -/
def invMixColumns (st : List Nat) : List Nat :=
  (List.range 4).flatMap (fun c =>
    invMixColumn (st.getD (4 * c) 0) (st.getD (4 * c + 1) 0)
      (st.getD (4 * c + 2) 0) (st.getD (4 * c + 3) 0))

/-- The eight 32-bit words of an AES-256 key, as 4-byte lists. -/
def keyWords (key : List Nat) : List (List Nat) :=
  (List.range 8).map (fun i =>
    [key.getD (4 * i) 0, key.getD (4 * i + 1) 0, key.getD (4 * i + 2) 0, key.getD (4 * i + 3) 0])

/-- AES round-constant bytes. -/
def aesRcon : List Nat := [0, 1, 2, 4, 8, 16, 32, 64]

/-- SubWord of the AES key schedule. -/
def subWord (w : List Nat) : List Nat := w.map sboxAt

/-- RotWord of the AES key schedule. -/
def rotWord : List Nat → List Nat
  | a :: rest => rest ++ [a]
  | [] => []

/-- AES-256 key expansion: the sixty 4-byte words of the key schedule. -/
def keyExpansion256 (key : List Nat) : List (List Nat) :=
  (List.range 52).foldl (fun ws j =>
    let i := j + 8
    let temp := ws.getLastD []
    let temp :=
      if i % 8 = 0 then zipXor (subWord (rotWord temp)) [aesRcon.getD (i / 8) 0, 0, 0, 0]
      else if i % 8 = 4 then subWord temp
      else temp
    ws ++ [zipXor (ws.getD (ws.length - 8) []) temp]) (keyWords key)

/-- Round key `r` (16 bytes) from the expanded key schedule. -/
def roundKey (ws : List (List Nat)) (r : Nat) : List Nat :=
  ws.getD (4 * r) [] ++ ws.getD (4 * r + 1) [] ++ ws.getD (4 * r + 2) [] ++ ws.getD (4 * r + 3) []

/-- AES-256 encryption of one 16-byte block (FIPS 197). -/
def aes256Encrypt (key block : List Nat) : List Nat :=
  let ws := keyExpansion256 key
  let st0 := zipXor block (roundKey ws 0)
  let st := (List.range 13).foldl (fun st r =>
    zipXor (mixColumns (shiftRows (st.map sboxAt))) (roundKey ws (r + 1))) st0
  zipXor (shiftRows (st.map sboxAt)) (roundKey ws 14)

/-- AES-256 decryption of one 16-byte block (FIPS 197). -/
def aes256Decrypt (key block : List Nat) : List Nat :=
  let ws := keyExpansion256 key
  let st0 := zipXor block (roundKey ws 14)
  let st := (List.range 13).foldl (fun st r =>
    invMixColumns (zipXor ((invShiftRows st).map invSboxAt) (roundKey ws (13 - r)))) st0
  zipXor ((invShiftRows st).map invSboxAt) (roundKey ws 0)

/-- Reduction to 32 bits. -/
def m32 (n : Nat) : Nat := n % 4294967296

/-- 32-bit rotate right. -/
def rotr32 (n x : Nat) : Nat := m32 ((x >>> n) ||| (x <<< (32 - n)))

/-- SHA-256 small sigma 0. -/
def sha256s0 (x : Nat) : Nat := rotr32 7 x ^^^ rotr32 18 x ^^^ (x >>> 3)

/-- SHA-256 small sigma 1. -/
def sha256s1 (x : Nat) : Nat := rotr32 17 x ^^^ rotr32 19 x ^^^ (x >>> 10)

/-- SHA-256 big sigma 0. -/
def sha256S0 (x : Nat) : Nat := rotr32 2 x ^^^ rotr32 13 x ^^^ rotr32 22 x

/-- SHA-256 big sigma 1. -/
def sha256S1 (x : Nat) : Nat := rotr32 6 x ^^^ rotr32 11 x ^^^ rotr32 25 x

/-- SHA-256 choice function. -/
def sha256Ch (x y z : Nat) : Nat := (x &&& y) ^^^ ((x ^^^ 4294967295) &&& z)

/-- SHA-256 majority function. -/
def sha256Maj (x y z : Nat) : Nat := (x &&& y) ^^^ (x &&& z) ^^^ (y &&& z)

/-- Big-endian 32-bit words of a byte string. -/
def bytesToWordsBE (b : List Nat) : List Nat :=
  (List.range (b.length / 4)).map (fun i =>
    b.getD (4 * i) 0 * 16777216 + b.getD (4 * i + 1) 0 * 65536 +
      b.getD (4 * i + 2) 0 * 256 + b.getD (4 * i + 3) 0)

/-- SHA-256 message padding (FIPS 180-4). -/
def sha256PadMsg (msg : List Nat) : List Nat :=
  msg ++ 128 :: List.replicate ((56 + 64 - (msg.length + 1) % 64) % 64) 0 ++
    intToBytesBE 8 (msg.length * 8)

/-- SHA-256 message schedule: extend sixteen words to sixty-four. -/
def sha256Schedule (ws : List Nat) : List Nat :=
  (List.range 48).foldl (fun w j =>
    let i := j + 16
    w ++ [m32 (sha256s1 (w.getD (i - 2) 0) + w.getD (i - 7) 0 +
      sha256s0 (w.getD (i - 15) 0) + w.getD (i - 16) 0)]) ws

/-- SHA-256 compression of one 64-byte chunk into the running state. -/
def sha256Compress (h : List Nat) (chunk : List Nat) : List Nat :=
  let w := sha256Schedule (bytesToWordsBE chunk)
  let st := (List.range 64).foldl (fun st i =>
    match st with
    | [a, b, c, d, e, f, g, hh] =>
      let t1 := m32 (hh + sha256S1 e + sha256Ch e f g + sha256K.getD i 0 + w.getD i 0)
      let t2 := m32 (sha256S0 a + sha256Maj a b c)
      [m32 (t1 + t2), a, b, c, m32 (d + t1), e, f, g]
    | other => other) h
  List.zipWith (fun x y => m32 (x + y)) h st

/-- Fuelled 64-byte chunker. -/
def toChunks64Go : Nat → List Nat → List (List Nat)
  | _, [] => []
  | 0, _ :: _ => []
  | fuel + 1, b :: bs => (b :: bs).take 64 :: toChunks64Go fuel ((b :: bs).drop 64)

/-- Cut a byte string into 64-byte chunks. -/
def toChunks64 (l : List Nat) : List (List Nat) :=
  toChunks64Go l.length l

/-- SHA-256 of a byte string (FIPS 180-4). -/
def sha256 (msg : List Nat) : List Nat :=
  ((toChunks64 (sha256PadMsg msg)).foldl sha256Compress sha256H0).flatMap (intToBytesBE 4)

/-- HMAC-SHA256 for keys of at most 64 bytes (the only case the module's
key derivation needs). -/
def hmacSha256 (key msg : List Nat) : List Nat :=
  let k0 := (key ++ List.replicate 64 0).take 64
  sha256 ((k0.map (fun b => b ^^^ 92)) ++ sha256 ((k0.map (fun b => b ^^^ 54)) ++ msg))

/-- Byte string of the HKDF info label `handshake data` (line 44). -/
def handshakeInfo : List Nat :=
  [104, 97, 110, 100, 115, 104, 97, 107, 101, 32, 100, 97, 116, 97]

/-- HKDF-SHA256 exactly as `computeSharedSecret` configures it: output
length 32, no salt (which HKDF replaces with 32 zero bytes), info
`handshake data`; a 32-byte output is a single expansion block. -/
def hkdfSha256Torzela (ikm : List Nat) : List Nat :=
  hmacSha256 (hmacSha256 (List.replicate 32 0) ikm) (handshakeInfo ++ [1])

/-- Backend with the real library primitives: AES-256 and HKDF-SHA256
computed bit-for-bit.  (PEM serialization keeps the decimal test
encoding; none of the theorems stated over this backend touch it.) -/
def realBackend : CryptoBackend where
  blockEnc := aes256Encrypt
  blockDec := aes256Decrypt
  hkdfSha256 := hkdfSha256Torzela
  pemEncodePub := decimalPemEncode
  pemDecodePub := decimalPemDecode

instance exceptDecEq {ε α : Type} [DecidableEq ε] [DecidableEq α] : DecidableEq (Except ε α) :=
  fun x y =>
  match x, y with
  | .error u, .error v =>
    if h : u = v then .isTrue (congrArg Except.error h)
    else .isFalse (fun hc => h (Except.error.inj hc))
  | .error _, .ok _ => .isFalse (fun hc => Except.noConfusion hc)
  | .ok _, .error _ => .isFalse (fun hc => Except.noConfusion hc)
  | .ok u, .ok v =>
    if h : u = v then .isTrue (congrArg Except.ok h)
    else .isFalse (fun hc => h (Except.ok.inj hc))

theorem utf8EncodeChar_ascii {c : Nat} (h : c < 128) : utf8EncodeChar c = [c] := by
  simp [utf8EncodeChar, h]

theorem utf8Encode_cons (c : Nat) (t : List Nat) :
    utf8Encode (c :: t) = utf8EncodeChar c ++ utf8Encode t := by
  simp [utf8Encode]

/-- UTF-8 encoding is the identity on ASCII text. -/
theorem utf8Encode_ascii (s : List Nat) (h : ∀ c ∈ s, c < 128) : utf8Encode s = s := by
  induction s with
  | nil => rfl
  | cons c t ih =>
    have hc : c < 128 := h c (List.mem_cons_self c t)
    have ht : ∀ x ∈ t, x < 128 := fun x hx => h x (List.mem_cons_of_mem c hx)
    rw [utf8Encode_cons, utf8EncodeChar_ascii hc, ih ht]
    rfl

theorem utf8DecodeOne_ascii {c : Nat} (h : c < 128) (bs : List Nat) :
    utf8DecodeOne c bs = some (c, 0) := by
  unfold utf8DecodeOne
  rw [if_pos h]

theorem utf8DecodeGo_ascii (s : List Nat) (fuel : Nat) (hf : s.length ≤ fuel)
    (h : ∀ c ∈ s, c < 128) : utf8DecodeGo fuel s = some s := by
  induction s generalizing fuel with
  | nil => cases fuel <;> rfl
  | cons c t ih =>
    have hc : c < 128 := h c (List.mem_cons_self c t)
    have ht : ∀ x ∈ t, x < 128 := fun x hx => h x (List.mem_cons_of_mem c hx)
    cases fuel with
    | zero => simp at hf
    | succ f =>
      simp only [utf8DecodeGo]
      rw [utf8DecodeOne_ascii hc]
      dsimp only
      rw [List.drop_zero, ih f (by simp at hf; omega) ht]
      rfl

/-- UTF-8 decoding succeeds and is the identity on ASCII byte strings. -/
theorem utf8Decode_ascii (s : List Nat) (h : ∀ c ∈ s, c < 128) : utf8Decode s = some s :=
  utf8DecodeGo_ascii s s.length (le_refl _) h

theorem zipXor_length (a b : List Nat) : (zipXor a b).length = min a.length b.length := by
  simp [zipXor]

theorem zipXor_cancel (a b : List Nat) (h : a.length = b.length) :
    zipXor a (zipXor a b) = b := by
  induction a generalizing b with
  | nil =>
    cases b with
    | nil => rfl
    | cons y ys => simp at h
  | cons x xs ih =>
    cases b with
    | nil => simp at h
    | cons y ys =>
      simp only [zipXor, List.zipWith_cons_cons] at ih ⊢
      rw [show x.xor (x.xor y) = y from Nat.xor_cancel_left x y]
      have := ih ys (by simpa using h)
      simp only [zipXor] at this
      rw [this]

theorem pkcs7Pad_length (d : List Nat) :
    (pkcs7Pad d).length = d.length + (16 - d.length % 16) := by
  simp [pkcs7Pad]

theorem pkcs7Pad_length_mod (d : List Nat) : (pkcs7Pad d).length % 16 = 0 := by
  rw [pkcs7Pad_length]
  omega

/-- PKCS#7 unpadding undoes PKCS#7 padding. -/
theorem pkcs7Unpad_pad (d : List Nat) : pkcs7Unpad (pkcs7Pad d) = .ok d := by
  have hmod : (pkcs7Pad d).length % 16 = 0 := pkcs7Pad_length_mod d
  have hlen : (pkcs7Pad d).length = d.length + (16 - d.length % 16) := pkcs7Pad_length d
  have hr : d.length % 16 < 16 := Nat.mod_lt _ (by norm_num)
  have hpad : pkcs7Pad d = d ++ List.replicate (16 - d.length % 16) (16 - d.length % 16) := rfl
  have hrep : List.replicate (16 - d.length % 16) (16 - d.length % 16) =
      List.replicate (16 - d.length % 16 - 1) (16 - d.length % 16) ++ [16 - d.length % 16] := by
    have h1 : 16 - d.length % 16 = (16 - d.length % 16 - 1) + 1 := by omega
    calc List.replicate (16 - d.length % 16) (16 - d.length % 16)
        = List.replicate ((16 - d.length % 16 - 1) + 1) (16 - d.length % 16) := by rw [← h1]
      _ = _ := List.replicate_succ' _ _
  have hlast : (pkcs7Pad d).getLastD 0 = 16 - d.length % 16 := by
    rw [hpad, hrep, ← List.append_assoc]
    simp
  have hsub : (pkcs7Pad d).length - (16 - d.length % 16) = d.length := by omega
  have hdrop : (pkcs7Pad d).drop ((pkcs7Pad d).length - (16 - d.length % 16)) =
      List.replicate (16 - d.length % 16) (16 - d.length % 16) := by
    rw [hsub, hpad]
    conv_lhs => rw [show d.length = d.length from rfl]
    exact List.drop_left d _
  have htake : (pkcs7Pad d).take ((pkcs7Pad d).length - (16 - d.length % 16)) = d := by
    rw [hsub, hpad]
    exact List.take_left d _
  rw [pkcs7Unpad]
  rw [if_pos ⟨hmod, by omega⟩]
  rw [hlast]
  rw [if_pos ⟨by omega, by omega, by omega, hdrop⟩]
  rw [htake]

theorem toBlocksGo_nil (fuel : Nat) : toBlocksGo fuel [] = [] := by
  cases fuel <;> rfl

theorem toBlocks_nil : toBlocks [] = [] := rfl

theorem toBlocksGo_flatten (bs : List (List Nat)) (fuel : Nat) (hf : bs.length ≤ fuel)
    (h : ∀ b ∈ bs, b.length = 16) : toBlocksGo fuel bs.flatten = bs := by
  induction bs generalizing fuel with
  | nil => exact toBlocksGo_nil fuel
  | cons b rest ih =>
    have hb : b.length = 16 := h b (List.mem_cons_self b rest)
    cases fuel with
    | zero => simp at hf
    | succ f =>
      rw [List.flatten_cons]
      cases b with
      | nil => simp at hb
      | cons x b2 =>
        rw [List.cons_append]
        simp only [toBlocksGo]
        rw [← List.cons_append]
        have ht : ((x :: b2) ++ rest.flatten).take 16 = x :: b2 := by
          rw [← hb]
          exact List.take_left _ _
        have hd : ((x :: b2) ++ rest.flatten).drop 16 = rest.flatten := by
          rw [← hb]
          exact List.drop_left _ _
        rw [ht, hd, ih f (by simp at hf ⊢; omega)
          (fun y hy => h y (List.mem_cons_of_mem _ hy))]

/-- Cutting a flattened list of 16-byte blocks recovers the blocks. -/
theorem toBlocks_flatten (bs : List (List Nat)) (h : ∀ b ∈ bs, b.length = 16) :
    toBlocks bs.flatten = bs := by
  have hcount : ∀ cs : List (List Nat), (∀ b ∈ cs, b.length = 16) →
      cs.length ≤ cs.flatten.length := by
    intro cs
    induction cs with
    | nil => intro _; simp
    | cons b rest ih =>
      intro hcs
      have hb : b.length = 16 := hcs b (List.mem_cons_self b rest)
      have := ih (fun y hy => hcs y (List.mem_cons_of_mem _ hy))
      simp [List.length_flatten] at this ⊢
      omega
  exact toBlocksGo_flatten bs bs.flatten.length (hcount bs h) h

theorem toBlocksGo_mem_length (fuel : Nat) : ∀ l : List Nat, l.length ≤ fuel →
    l.length % 16 = 0 → ∀ b ∈ toBlocksGo fuel l, b.length = 16 := by
  induction fuel with
  | zero =>
    intro l hf hmod b hb
    cases l with
    | nil => simp [toBlocksGo] at hb
    | cons x xs => simp at hf
  | succ f ih =>
    intro l hf hmod b hb
    cases l with
    | nil => simp [toBlocksGo] at hb
    | cons x xs =>
      simp only [toBlocksGo] at hb
      have hA : (x :: xs).length = xs.length + 1 := by simp
      have h16 : 16 ≤ (x :: xs).length := by
        rw [hA] at hmod ⊢
        omega
      rcases List.mem_cons.mp hb with h1 | h1
      · rw [h1, List.length_take]
        omega
      · refine ih _ ?_ ?_ b h1
        · rw [List.length_drop]
          simp at hf
          rw [hA] at h16 ⊢
          omega
        · rw [List.length_drop]
          rw [hA] at hmod h16 ⊢
          omega

/-- Every block produced from a list whose length is a multiple of 16 has
exactly 16 bytes. -/
theorem toBlocks_mem_length (l : List Nat) (h : l.length % 16 = 0) :
    ∀ b ∈ toBlocks l, b.length = 16 :=
  toBlocksGo_mem_length l.length l (le_refl _) h

theorem flatten_toBlocksGo (fuel : Nat) : ∀ l : List Nat, l.length ≤ fuel →
    (toBlocksGo fuel l).flatten = l := by
  induction fuel with
  | zero =>
    intro l hf
    cases l with
    | nil => rfl
    | cons x xs => simp at hf
  | succ f ih =>
    intro l hf
    cases l with
    | nil => rfl
    | cons x xs =>
      simp only [toBlocksGo, List.flatten_cons]
      rw [ih _ (by rw [List.length_drop]; simp at hf ⊢; omega)]
      exact List.take_append_drop 16 (x :: xs)

/-- Flattening the blocks of any byte string recovers the byte string. -/
theorem flatten_toBlocks (l : List Nat) : (toBlocks l).flatten = l :=
  flatten_toBlocksGo l.length l (le_refl _)

theorem flatten_blocks_mod (bs : List (List Nat)) (h : ∀ b ∈ bs, b.length = 16) :
    bs.flatten.length % 16 = 0 := by
  induction bs with
  | nil => rfl
  | cons b rest ih =>
    have hb : b.length = 16 := h b (List.mem_cons_self b rest)
    have := ih (fun x hx => h x (List.mem_cons_of_mem b hx))
    simp [List.length_flatten] at this ⊢
    omega

theorem cbcEncryptBlocks_mem_length (E : List Nat → List Nat → List Nat) (key : List Nat)
    (hE : ∀ k b, b.length = 16 → (E k b).length = 16) (prev : List Nat)
    (bs : List (List Nat)) (hprev : prev.length = 16) (hbs : ∀ b ∈ bs, b.length = 16) :
    ∀ c ∈ cbcEncryptBlocks E key prev bs, c.length = 16 := by
  induction bs generalizing prev with
  | nil =>
    intro c hc
    simp [cbcEncryptBlocks] at hc
  | cons b rest ih =>
    intro c hc
    have hb : b.length = 16 := hbs b (List.mem_cons_self b rest)
    have hxb : (zipXor prev b).length = 16 := by
      rw [zipXor_length, hprev, hb]
      simp
    have hcb : (E key (zipXor prev b)).length = 16 := hE key _ hxb
    simp only [cbcEncryptBlocks] at hc
    rcases List.mem_cons.mp hc with hh | hh
    · rw [hh]; exact hcb
    · exact ih _ hcb (fun x hx => hbs x (List.mem_cons_of_mem b hx)) c hh

/-- CBC decryption undoes CBC encryption when the block cipher pair is
inverse on 16-byte blocks. -/
theorem cbcDecrypt_cbcEncrypt (E D : List Nat → List Nat → List Nat) (key : List Nat)
    (hED : ∀ k b, b.length = 16 → D k (E k b) = b)
    (hE : ∀ k b, b.length = 16 → (E k b).length = 16)
    (prev : List Nat) (bs : List (List Nat)) (hprev : prev.length = 16)
    (hbs : ∀ b ∈ bs, b.length = 16) :
    cbcDecryptBlocks D key prev (cbcEncryptBlocks E key prev bs) = bs := by
  induction bs generalizing prev with
  | nil => rfl
  | cons b rest ih =>
    have hb : b.length = 16 := hbs b (List.mem_cons_self b rest)
    have hxb : (zipXor prev b).length = 16 := by
      rw [zipXor_length, hprev, hb]
      simp
    simp only [cbcEncryptBlocks, cbcDecryptBlocks]
    rw [hED key _ hxb]
    rw [zipXor_cancel prev b (by omega)]
    rw [ih _ (hE key _ hxb) (fun x hx => hbs x (List.mem_cons_of_mem b hx))]

theorem unpack2_error {α : Type} {l : List α} {e : PyError}
    (h : unpack2 l = .error e) : e = .valueError := by
  rcases l with _ | ⟨a, _ | ⟨b, _ | ⟨c, rest⟩⟩⟩ <;>
    simp [unpack2] at h <;>
    exact h.symm

theorem unpack3_error {α : Type} {l : List α} {e : PyError}
    (h : unpack3 l = .error e) : e = .valueError := by
  rcases l with _ | ⟨a, _ | ⟨b, _ | ⟨c, _ | ⟨d, rest⟩⟩⟩⟩ <;>
    simp [unpack3] at h <;>
    exact h.symm

theorem deserializePublicKey_error {lib : CryptoBackend} {k : List Nat} {e : PyError}
    (h : deserializePublicKey lib k = .error e) : e = .valueError := by
  unfold deserializePublicKey at h
  cases hm : lib.pemDecodePub (utf8Encode k) with
  | some x =>
    rw [hm] at h
    exact Except.noConfusion h
  | none =>
    rw [hm] at h
    exact (Except.error.inj h).symm

theorem computeSharedSecret_error {lib : CryptoBackend} {priv : DHPrivateKey}
    {pub : DHPublicKey} {e : PyError}
    (h : computeSharedSecret lib priv pub = .error e) : e = .valueError := by
  unfold computeSharedSecret dhExchange at h
  by_cases hc : priv.p = pub.p ∧ priv.g = pub.g
  · rw [if_pos hc] at h
    exact Except.noConfusion h
  · rw [if_neg hc] at h
    exact (Except.error.inj h).symm

theorem createCipher_error {s : List Nat} {e : PyError}
    (h : createCipher s = .error e) : e = .valueError := by
  unfold createCipher at h
  by_cases hc : s.length = 16 ∨ s.length = 24 ∨ s.length = 32
  · rw [if_pos hc] at h
    exact Except.noConfusion h
  · rw [if_neg hc] at h
    exact (Except.error.inj h).symm

theorem pkcs7Unpad_error {d : List Nat} {e : PyError}
    (h : pkcs7Unpad d = .error e) : e = .paddingError := by
  unfold pkcs7Unpad at h
  by_cases h1 : d.length % 16 = 0 ∧ d.length ≠ 0
  · rw [if_pos h1] at h
    by_cases h2 : 1 ≤ d.getLastD 0 ∧ d.getLastD 0 ≤ 16 ∧ d.getLastD 0 ≤ d.length ∧
        d.drop (d.length - d.getLastD 0) = List.replicate (d.getLastD 0) (d.getLastD 0)
    · rw [if_pos h2] at h
      exact Except.noConfusion h
    · rw [if_neg h2] at h
      exact (Except.error.inj h).symm
  · rw [if_neg h1] at h
    exact (Except.error.inj h).symm

theorem pyDecode_bytes_error {b : List Nat} {e : PyError}
    (h : pyDecode (.pyBytes b) = .error e) : e = .unicodeDecodeError := by
  unfold pyDecode at h
  dsimp only at h
  cases hm : utf8Decode b with
  | some t =>
    rw [hm] at h
    exact Except.noConfusion h
  | none =>
    rw [hm] at h
    exact (Except.error.inj h).symm

theorem decryptMessage_error_ne_invalidRole {lib : CryptoBackend} {s m : List Nat}
    {e : PyError} (h : decryptMessage lib s m = .error e) : e ≠ PyError.invalidRole := by
  unfold decryptMessage at h
  cases hc : createCipher s with
  | error e0 =>
    rw [hc] at h
    have he : e = e0 := (Except.error.inj h).symm
    rw [he, createCipher_error hc]
    decide
  | ok c =>
    rw [hc] at h
    dsimp only at h
    by_cases hlen : m.length % 16 = 0
    · rw [if_pos hlen] at h
      cases hu : pkcs7Unpad
          (List.flatten (cbcDecryptBlocks lib.blockDec c.key c.iv (toBlocks m))) with
      | error e1 =>
        rw [hu] at h
        have he : e = e1 := (Except.error.inj h).symm
        rw [he, pkcs7Unpad_error hu]
        decide
      | ok unp =>
        rw [hu] at h
        dsimp only at h
        rw [pyDecode_bytes_error h]
        decide
    · rw [if_neg hlen] at h
      have he : e = PyError.valueError := (Except.error.inj h).symm
      rw [he]
      decide

/-- Workhorse for the onion-layer claims: `decryptOnionLayer` raises an
exception on every input — every successful decryption path dies at the
line-107 `.decode()` on a `str` — the exception does not depend on the
role argument, and it is never the spec's invalid-role error. -/
theorem decryptOnionLayer_raises (lib : CryptoBackend) (priv : DHPrivateKey)
    (msgPayload : List Nat) :
    ∃ e, (∀ serverType : Int,
        decryptOnionLayer lib priv msgPayload serverType = Except.error e) ∧
      e ≠ PyError.invalidRole := by
  cases h1 : unpack2 (pySplit 35 1 msgPayload) with
  | error e =>
    refine ⟨e, fun serverType => ?_, ?_⟩
    · unfold decryptOnionLayer
      rw [h1]
    · rw [unpack2_error h1]
      decide
  | ok pr =>
    obtain ⟨ppkText, payloadText⟩ := pr
    cases h2 : deserializePublicKey lib ppkText with
    | error e =>
      refine ⟨e, fun serverType => ?_, ?_⟩
      · unfold decryptOnionLayer
        rw [h1]
        dsimp only
        rw [h2]
      · rw [deserializePublicKey_error h2]
        decide
    | ok ppk =>
      cases h3 : computeSharedSecret lib priv ppk with
      | error e =>
        refine ⟨e, fun serverType => ?_, ?_⟩
        · unfold decryptOnionLayer
          rw [h1]
          dsimp only
          rw [h2]
          dsimp only
          rw [h3]
        · rw [computeSharedSecret_error h3]
          decide
      | ok sharedSecret =>
        cases h4 : decryptMessage lib sharedSecret (utf8Encode payloadText) with
        | error e =>
          refine ⟨e, fun serverType => ?_, decryptMessage_error_ne_invalidRole h4⟩
          unfold decryptOnionLayer
          rw [h1]
          dsimp only
          rw [h2]
          dsimp only
          rw [h3]
          dsimp only
          rw [h4]
        | ok decrypted =>
          refine ⟨PyError.attributeError, fun serverType => ?_, by decide⟩
          unfold decryptOnionLayer
          rw [h1]
          dsimp only
          rw [h2]
          dsimp only
          rw [h3]
          dsimp only
          rw [h4]
          rfl

/-- Core round trip: with a block cipher pair that is inverse and
length-preserving on 16-byte blocks (as the library's AES is),
`decryptMessage` inverts `encryptMessage` for any 32-byte key and any
ASCII plaintext. -/
theorem decryptMessage_encryptMessage (lib : CryptoBackend)
    (hED : ∀ k b, b.length = 16 → lib.blockDec k (lib.blockEnc k b) = b)
    (hE : ∀ k b, b.length = 16 → (lib.blockEnc k b).length = 16)
    (s m : List Nat) (hs : s.length = 32) (hm : ∀ c ∈ m, c < 128) :
    Except.bind (encryptMessage lib s m) (decryptMessage lib s) = .ok m := by
  have hcc : createCipher s = .ok { key := s, iv := torzelaIV } := by
    unfold createCipher
    rw [if_pos (Or.inr (Or.inr hs))]
  have hiv : torzelaIV.length = 16 := rfl
  have hpadmod : (pkcs7Pad (utf8Encode m)).length % 16 = 0 := pkcs7Pad_length_mod _
  have hblocks : ∀ b ∈ toBlocks (pkcs7Pad (utf8Encode m)), b.length = 16 :=
    toBlocks_mem_length _ hpadmod
  have hctblocks : ∀ c ∈ cbcEncryptBlocks lib.blockEnc s torzelaIV
      (toBlocks (pkcs7Pad (utf8Encode m))), c.length = 16 :=
    cbcEncryptBlocks_mem_length lib.blockEnc s hE torzelaIV _ hiv hblocks
  have hctmod : (List.flatten (cbcEncryptBlocks lib.blockEnc s torzelaIV
      (toBlocks (pkcs7Pad (utf8Encode m))))).length % 16 = 0 :=
    flatten_blocks_mod _ hctblocks
  unfold encryptMessage
  rw [hcc]
  dsimp only
  rw [show Except.bind (Except.ok (ε := PyError) (List.flatten (cbcEncryptBlocks lib.blockEnc
      s torzelaIV (toBlocks (pkcs7Pad (utf8Encode m)))))) (decryptMessage lib s) =
      decryptMessage lib s (List.flatten (cbcEncryptBlocks lib.blockEnc s torzelaIV
      (toBlocks (pkcs7Pad (utf8Encode m))))) from rfl]
  unfold decryptMessage
  rw [hcc]
  dsimp only
  rw [if_pos hctmod]
  rw [toBlocks_flatten _ hctblocks]
  rw [cbcDecrypt_cbcEncrypt lib.blockEnc lib.blockDec s hED hE torzelaIV _ hiv hblocks]
  rw [flatten_toBlocks]
  rw [pkcs7Unpad_pad]
  dsimp only
  unfold pyDecode
  dsimp only
  rw [utf8Encode_ascii m hm]
  rw [utf8Decode_ascii m hm]

theorem messageChars_lt128 : ∀ c ∈ messageChars, c < 128 := by decide

set_option maxRecDepth 100000 in
/-- C1: the claimed onion round trip — `encryptOnionLayer` on one side,
the caller-prepended serialized key and delimiter, `decryptOnionLayer`
on the other — never recovers the payload: on the concrete key pairs A
and B with payload `hello` and the FRONT_OR_MIDDLE role the decode step
raises `AttributeError` (line 107 calls `.decode()` on a `str`), and in
general `decryptOnionLayer` raises on every layer, every backend, every
key and every role. -/
theorem onion_roundtrip_fails :
    Except.bind (buildLayer xorBackend aliceKeys.1 aliceKeys.2 bobKeys.2 helloMsg)
      (fun L => decryptOnionLayer xorBackend bobKeys.1 L 0) =
      Except.error PyError.attributeError ∧
    ∀ (lib : CryptoBackend) (privB : DHPrivateKey) (L : List Nat) (role : Int),
      ∃ e, decryptOnionLayer lib privB L role = Except.error e := by
  constructor
  · decide
  · intro lib privB L role
    obtain ⟨e, he, _⟩ := decryptOnionLayer_raises lib privB L
    exact ⟨e, he role⟩

/-- C2: shared-secret symmetry — for any two key pairs generated under
the same domain parameters, `computeSharedSecret` gives the same value
in both directions. -/
theorem computeSharedSecret_symmetric (lib : CryptoBackend) (params : DHParams) (a b : Nat) :
    computeSharedSecret lib (generateKeys params a).1 (generateKeys params b).2 =
    computeSharedSecret lib (generateKeys params b).1 (generateKeys params a).2 := by
  have hkey : (params.g ^ b % params.p) ^ a % params.p =
      (params.g ^ a % params.p) ^ b % params.p := by
    rw [← Nat.pow_mod, ← Nat.pow_mod, ← pow_mul, ← pow_mul, Nat.mul_comm]
  unfold computeSharedSecret dhExchange generateKeys
  dsimp only
  rw [if_pos ⟨rfl, rfl⟩, if_pos ⟨rfl, rfl⟩]
  dsimp only
  rw [hkey]

/-- C3: symmetric-cipher round trip — for every 32-byte shared secret
and every plaintext over the `createRandomMessage` alphabet of length 1
to 1000, `decryptMessage` recovers exactly what `encryptMessage`
enciphered, given that the backend's block cipher pair is inverse and
length-preserving on 16-byte blocks (the library's AES contract). -/
theorem encryptMessage_decryptMessage_roundtrip (lib : CryptoBackend)
    (hED : ∀ k b, b.length = 16 → lib.blockDec k (lib.blockEnc k b) = b)
    (hE : ∀ k b, b.length = 16 → (lib.blockEnc k b).length = 16)
    (s m : List Nat) (hs : s.length = 32)
    (hm : ∀ c ∈ m, c ∈ messageChars) (_hlen1 : 1 ≤ m.length) (_hlen2 : m.length ≤ 1000) :
    Except.bind (encryptMessage lib s m) (decryptMessage lib s) = .ok m :=
  decryptMessage_encryptMessage lib hED hE s m hs
    (fun c hc => messageChars_lt128 c (hm c hc))

/-- Witness for C3 at the identity block cipher, the all-zero 32-byte
secret and the payload `hello`. -/
theorem encryptMessage_decryptMessage_roundtrip_witness :
    Except.bind (encryptMessage idBackend (List.replicate 32 0) helloMsg)
      (decryptMessage idBackend (List.replicate 32 0)) = .ok helloMsg :=
  encryptMessage_decryptMessage_roundtrip idBackend (fun _ _ _ => rfl) (fun _ _ h => h)
    (List.replicate 32 0) helloMsg (by decide) (by decide) (by decide) (by decide)

set_option maxRecDepth 100000 in
/-- C4 counterexample: with a well-formed layer and the out-of-range
role 5, `decryptOnionLayer` raises `AttributeError` — not the spec's
invalid-role error. -/
theorem decryptOnionLayer_invalid_role_counterexample :
    Except.bind (buildLayer xorBackend aliceKeys.1 aliceKeys.2 bobKeys.2 helloMsg)
      (fun L => decryptOnionLayer xorBackend bobKeys.1 L 5) =
      Except.error PyError.attributeError ∧
    Except.bind (buildLayer xorBackend aliceKeys.1 aliceKeys.2 bobKeys.2 helloMsg)
      (fun L => decryptOnionLayer xorBackend bobKeys.1 L 5) ≠
      Except.error PyError.invalidRole := by
  constructor
  · decide
  · decide

/-- C4 as amended: for any role outside 0, 1, 2 the call never returns
decoded fields — it raises an exception, and that exception is never an
invalid-role error (as written, the `AttributeError` of the line-107
decode fires before the role check; the fallthrough branch itself would
print a message and return `None` rather than raise). -/
theorem decryptOnionLayer_invalid_role_raises (lib : CryptoBackend) (priv : DHPrivateKey)
    (msgPayload : List Nat) (serverType : Int)
    (_hrole : serverType ≠ 0 ∧ serverType ≠ 1 ∧ serverType ≠ 2) :
    ∃ e, decryptOnionLayer lib priv msgPayload serverType = Except.error e ∧
      e ≠ PyError.invalidRole := by
  obtain ⟨e, he, hne⟩ := decryptOnionLayer_raises lib priv msgPayload
  exact ⟨e, he serverType, hne⟩

/-- Witness for the amended C4 at the concrete key pair B, payload
`hello` and role 5. -/
theorem decryptOnionLayer_invalid_role_raises_witness :
    ∃ e, decryptOnionLayer xorBackend bobKeys.1 helloMsg 5 = Except.error e ∧
      e ≠ PyError.invalidRole :=
  decryptOnionLayer_invalid_role_raises xorBackend bobKeys.1 helloMsg 5 (by decide)

set_option maxRecDepth 100000 in
/-- C5: the SPREADING reassembly never happens — on a well-formed layer
whose decrypted plaintext is `3#a#b#c` (integer dead-drop index, then
two further fields), `decryptOnionLayer` with role 1 raises
`AttributeError` at the line-107 decode instead of returning
`(ppk, 3, a#b#c)` as its own documentation promises. -/
theorem decryptOnionLayer_spreading_raises :
    Except.bind (buildLayer xorBackend aliceKeys.1 aliceKeys.2 bobKeys.2 spreadMsg)
      (fun L => decryptOnionLayer xorBackend bobKeys.1 L 1) =
      Except.error PyError.attributeError := by
  decide

set_option maxRecDepth 100000 in
/-- C6: the malformed-payload format checks are never reached — on a
well-formed layer whose decrypted plaintext `abc` has no `#`-delimited
fields at all, `decryptOnionLayer` with the SPREADING role raises
`AttributeError` at the line-107 decode, not the claimed format error
from the field-count check. -/
theorem decryptOnionLayer_malformed_raises :
    Except.bind (buildLayer xorBackend aliceKeys.1 aliceKeys.2 bobKeys.2 abcMsg)
      (fun L => decryptOnionLayer xorBackend bobKeys.1 L 1) =
      Except.error PyError.attributeError := by
  decide

/-- C7: key-serialization round trip — whenever the library's PEM pair
round-trips on a key and its PEM rendering is ASCII (both are library
guarantees), `deserializePublicKey` after `serializePublicKey` recovers
a key deriving exactly the same shared secrets as the original with any
private key. -/
theorem serializePublicKey_deserialize_roundtrip (lib : CryptoBackend) (k : DHPublicKey)
    (hrt : lib.pemDecodePub (lib.pemEncodePub k) = some k)
    (hascii : ∀ b ∈ lib.pemEncodePub k, b < 128) :
    ∃ t k2, serializePublicKey lib k = .ok t ∧ deserializePublicKey lib t = .ok k2 ∧
      ∀ priv, computeSharedSecret lib priv k2 = computeSharedSecret lib priv k := by
  refine ⟨lib.pemEncodePub k, k, ?_, ?_, fun priv => rfl⟩
  · unfold serializePublicKey pyDecode
    dsimp only
    rw [utf8Decode_ascii _ hascii]
  · unfold deserializePublicKey
    rw [utf8Encode_ascii _ hascii, hrt]

/-- Witness for C7 at the concrete public key of pair A. -/
theorem serializePublicKey_deserialize_roundtrip_witness :
    ∃ t k2, serializePublicKey idBackend aliceKeys.2 = .ok t ∧
      deserializePublicKey idBackend t = .ok k2 ∧
      ∀ priv, computeSharedSecret idBackend priv k2 =
        computeSharedSecret idBackend priv aliceKeys.2 :=
  serializePublicKey_deserialize_roundtrip idBackend aliceKeys.2 (by decide) (by decide)

/-- C8: every cipher object built by `createCipher` carries the one
hard-coded 16-byte IV from line 27 — the same for every shared secret —
and the ciphertext of `encryptMessage` is the CBC encryption of the
padded plaintext under exactly that constant IV, hence a pure function
of the secret and the message: two invocations with the same arguments
are byte-identical. -/
theorem encryptMessage_fixed_iv_deterministic (lib : CryptoBackend) (s s2 : List Nat)
    (c c2 : CipherObj) (h : createCipher s = .ok c) (h2 : createCipher s2 = .ok c2) :
    c.iv = c2.iv ∧
    c.iv = [43, 237, 54, 221, 240, 177, 23, 162, 167, 18, 19, 211, 208, 249, 20, 172] ∧
    ∀ m, encryptMessage lib s m = .ok (List.flatten (cbcEncryptBlocks lib.blockEnc s
      [43, 237, 54, 221, 240, 177, 23, 162, 167, 18, 19, 211, 208, 249, 20, 172]
      (toBlocks (pkcs7Pad (utf8Encode m))))) := by
  have hciph : ∀ (s3 : List Nat) (c3 : CipherObj), createCipher s3 = .ok c3 →
      c3 = { key := s3, iv := torzelaIV } := by
    intro s3 c3 h3
    unfold createCipher at h3
    by_cases hs : s3.length = 16 ∨ s3.length = 24 ∨ s3.length = 32
    · rw [if_pos hs] at h3
      exact (Except.ok.inj h3).symm
    · rw [if_neg hs] at h3
      exact Except.noConfusion h3
  have hc := hciph s c h
  have hc2 := hciph s2 c2 h2
  refine ⟨by rw [hc, hc2], by rw [hc]; rfl, ?_⟩
  intro m
  have h3 : createCipher s = .ok { key := s, iv := torzelaIV } := hc ▸ h
  unfold encryptMessage
  rw [h3]
  rfl

/-- Witness for C8 at the all-zero 32-byte secret. -/
theorem encryptMessage_fixed_iv_deterministic_witness :
    ∃ c : CipherObj, createCipher (List.replicate 32 0) = .ok c ∧
      c.iv = [43, 237, 54, 221, 240, 177, 23, 162, 167, 18, 19, 211, 208, 249, 20, 172] := by
  have h : createCipher (List.replicate 32 0) =
      .ok { key := List.replicate 32 0, iv := torzelaIV } := by decide
  exact ⟨_, h, (encryptMessage_fixed_iv_deterministic idBackend _ _ _ _ h h).2.1⟩

/-- C9: `decryptOnionLayer` never returns decoded fields — on every
backend, private key, layer string and role it raises an exception, and
the result does not even depend on the role, because the line-107
`.decode()` on the `str` from `decryptMessage` (or an earlier failure)
fires before the role branch, leaving all three return statements
unreachable. -/
theorem decryptOnionLayer_never_returns (lib : CryptoBackend) (priv : DHPrivateKey)
    (msgPayload : List Nat) (serverType serverType2 : Int) :
    (∃ e, decryptOnionLayer lib priv msgPayload serverType = Except.error e) ∧
    decryptOnionLayer lib priv msgPayload serverType =
      decryptOnionLayer lib priv msgPayload serverType2 := by
  obtain ⟨e, he, _⟩ := decryptOnionLayer_raises lib priv msgPayload
  exact ⟨⟨e, he serverType⟩, by rw [he serverType, he serverType2]⟩

set_option maxRecDepth 100000 in
/-- C10: `encryptOnionLayer` is partial — with the bit-faithful AES-256
and HKDF-SHA256 backend, the generated key pairs A and B sharing the
demo domain parameters and the payload `hello`, the raw AES-CBC
ciphertext bytes are not valid UTF-8, so the final `.decode()` on line
125 raises `UnicodeDecodeError` instead of returning a layer string. -/
theorem encryptOnionLayer_unicode_failure :
    aliceKeys = generateKeys demoParams 5 ∧ bobKeys = generateKeys demoParams 7 ∧
    encryptOnionLayer realBackend aliceKeys.1 bobKeys.2 helloMsg =
      Except.error PyError.unicodeDecodeError := by
  refine ⟨rfl, rfl, ?_⟩
  decide
